import Mathlib

/-!
Shallow embedding of the `DiffViewer` component (the line-oriented diff
engine of this repository) and proofs of the specified properties.

JavaScript strings are embedded as `List Char`; JavaScript values arriving
at the component boundary as `JSValue`; the `try`/`catch` control flow as
`Except JSError Outcome`.
-/

namespace GitGenie

/-- The classification of one output record: the source tags records with
`type: 'context' | 'addition' | 'deletion'`. -/
inductive LineType where
  | context
  | addition
  | deletion
deriving DecidableEq

/-- One entry of the `diff` array built by `generateDiff`:
`{ type, content, oldLineNumber, newLineNumber }`, where a `null` line
number is embedded as `none`. -/
structure LineRecord where
  type : LineType
  content : List Char
  oldLineNumber : Option Nat
  newLineNumber : Option Nat
deriving DecidableEq

/-- JavaScript `text.split('\n')` on a string embedded as `List Char`:
the newline character is the sole delimiter, every other character
(including a carriage return) is kept in the piece it occurs in, and the
empty string yields one empty piece. -/
def splitLines : List Char → List (List Char)
  | [] => [[]]
  | c :: cs =>
    if c = '\n' then [] :: splitLines cs
    else
      match splitLines cs with
      | [] => [[c]]
      | l :: ls => (c :: l) :: ls

/-- Rejoining a list of lines with the newline character
(`lines.join('\n')`), the inverse direction of `splitLines`. -/
def joinLines : List (List Char) → List Char
  | [] => []
  | [l] => l
  | l :: ls => l ++ '\n' :: joinLines ls

/-- The body of the `while` loop of `generateDiff`, embedded as recursion
on the lines not yet consumed.  The arguments `os`/`ns` are the suffixes
`oldLines[oldIndex..]`/`newLines[newIndex..]` and `oldIndex`/`newIndex`
the cursors, so the source's `oldLines[oldIndex + 1]` is `os.tail.head?`
here (a JavaScript out-of-bounds read gives `undefined`, which compares
unequal to every string, hence `Option` equality).  The five branches are,
in the source's order: old side exhausted, new side exhausted, equal
current lines, and for unequal lines the one-step lookahead
(`nextOldLine === newLine`, then `nextNewLine === oldLine`, else the
substitution pair). -/
def generateDiffAux : List (List Char) → List (List Char) → Nat → Nat → List LineRecord
  | [], [], _, _ => []
  | [], newLine :: ns, oldIndex, newIndex =>
    ⟨.addition, newLine, none, some (newIndex + 1)⟩ ::
      generateDiffAux [] ns oldIndex (newIndex + 1)
  | oldLine :: os, [], oldIndex, newIndex =>
    ⟨.deletion, oldLine, some (oldIndex + 1), none⟩ ::
      generateDiffAux os [] (oldIndex + 1) newIndex
  | oldLine :: os, newLine :: ns, oldIndex, newIndex =>
    if oldLine = newLine then
      ⟨.context, oldLine, some (oldIndex + 1), some (newIndex + 1)⟩ ::
        generateDiffAux os ns (oldIndex + 1) (newIndex + 1)
    else if os.head? = some newLine then
      ⟨.deletion, oldLine, some (oldIndex + 1), none⟩ ::
        generateDiffAux os (newLine :: ns) (oldIndex + 1) newIndex
    else if ns.head? = some oldLine then
      ⟨.addition, newLine, none, some (newIndex + 1)⟩ ::
        generateDiffAux (oldLine :: os) ns oldIndex (newIndex + 1)
    else
      ⟨.deletion, oldLine, some (oldIndex + 1), none⟩ ::
        ⟨.addition, newLine, none, some (newIndex + 1)⟩ ::
          generateDiffAux os ns (oldIndex + 1) (newIndex + 1)
termination_by ol nl _ _ => ol.length + nl.length

/-- `generateDiff(oldText, newText)` of the source: split both texts on
the newline character and run the alignment loop with both cursors at 0. -/
def generateDiff (oldText newText : List Char) : List LineRecord :=
  generateDiffAux (splitLines oldText) (splitLines newText) 0 0

/-- A JavaScript value arriving at the `DiffViewer` boundary: `null`,
`undefined`, a string, or a non-string object.  A non-string object
carries `some s` when `String(·)` yields the string `s`, and `none` when
`String(·)` throws a `TypeError` (as for an object with no `toString`
and no `valueOf`, e.g. `Object.create(null)`). -/
inductive JSValue where
  | jsNull
  | jsUndefined
  | str (s : List Char)
  | obj (toStr : Option (List Char))
deriving DecidableEq

/-- JavaScript falsiness restricted to the values of `JSValue`: `null`,
`undefined` and the empty string are falsy; every other string and every
object is truthy.  `!before` in the source is `falsy before` here. -/
def falsy : JSValue → Bool
  | .jsNull => true
  | .jsUndefined => true
  | .str s => s.isEmpty
  | .obj _ => false

/-- A value is absent in the sense of the specification:
null, undefined or the empty string. -/
def absent (v : JSValue) : Prop :=
  v = .jsNull ∨ v = .jsUndefined ∨ v = .str []

instance (v : JSValue) : Decidable (absent v) := by
  unfold absent; infer_instance

/-- An exception crossing a JavaScript expression:
the embedding needs `TypeError` (failed string coercion) and
`ReferenceError` (an identifier not in scope). -/
inductive JSError where
  | typeError (msg : List Char)
  | referenceError (ident : List Char)
deriving DecidableEq

/-- `typeof v === 'string' ? v : String(v)` of the source: a string passes
through unchanged; `String(null)`, `String(undefined)` and a coercible
object yield their string form; an uncoercible object throws a
`TypeError`. -/
def coerceToString : JSValue → Except JSError (List Char)
  | .str s => .ok s
  | .jsNull => .ok ("null".toList)
  | .jsUndefined => .ok ("undefined".toList)
  | .obj (some s) => .ok s
  | .obj none => .error (.typeError ("Cannot convert object to primitive value".toList))

/-- The terminal outcomes `DiffViewer` can return normally: the invalid
input banner, the no-differences banner, or the rendered diff, which
displays the record list together with the two header counts
`diffLines.filter(d => d.type === 'addition').length` and
`diffLines.filter(d => d.type === 'deletion').length`. -/
inductive Outcome where
  | invalidInput
  | noDifferences
  | diffResult (records : List LineRecord) (additions deletions : Nat)
deriving DecidableEq

/-- The `catch` block of `DiffViewer`.  Its fallback JSX interpolates
`beforeStr` and `afterStr`, but those `const` bindings are declared inside
the `try` block and a `const` is scoped to its enclosing block, so they
are not in scope in the `catch` block: evaluating the fallback element
raises `ReferenceError: beforeStr is not defined` instead of returning the
fallback, and that error propagates to the caller. -/
def catchBlock (_error : JSError) : Except JSError Outcome :=
  .error (.referenceError ("beforeStr".toList))

/-- The body of the `try` block of `DiffViewer`: coerce both inputs to
strings (a thrown coercion error short-circuits the rest of the block),
run `generateDiff`, compute `hasChanges` as
`diffLines.some(l => l.type !== 'context')`, and return the
no-differences outcome when nothing changed, else the rendered diff with
its two header counts
`diffLines.filter(d => d.type === 'addition').length` and
`diffLines.filter(d => d.type === 'deletion').length`. -/
def tryBlock (before after : JSValue) : Except JSError Outcome :=
  match coerceToString before with
  | .error e => .error e
  | .ok beforeStr =>
    match coerceToString after with
    | .error e => .error e
    | .ok afterStr =>
      let diffLines := generateDiff beforeStr afterStr
      let hasChanges := diffLines.any (fun l => l.type != .context)
      if hasChanges then
        .ok (.diffResult diffLines
          ((diffLines.filter (fun d => d.type == .addition)).length)
          ((diffLines.filter (fun d => d.type == .deletion)).length))
      else
        .ok .noDifferences

/-- The `DiffViewer(before, after, fileName)` component.  The falsiness
gate `if (!before || !after || !fileName)` runs first and returns the
invalid-input outcome outside the `try`/`catch`; then the `try` block
runs, and any error thrown inside it reaches `catchBlock`. -/
def DiffViewer (before after fileName : JSValue) : Except JSError Outcome :=
  if falsy before || falsy after || falsy fileName then
    .ok .invalidInput
  else
    match tryBlock before after with
    | .ok outcome => .ok outcome
    | .error e => catchBlock e

instance : DecidableEq (Except JSError Outcome) := fun a b =>
  match a, b with
  | .ok x, .ok y => decidable_of_iff (x = y) (by simp)
  | .error x, .error y => decidable_of_iff (x = y) (by simp)
  | .ok _, .error _ => isFalse (by simp)
  | .error _, .ok _ => isFalse (by simp)

/-- A record belonging to the old document: Context or Deletion. -/
def oldSide (r : LineRecord) : Bool :=
  r.type == .context || r.type == .deletion

/-- A record belonging to the new document: Context or Addition. -/
def newSide (r : LineRecord) : Bool :=
  r.type == .context || r.type == .addition

/-! ### One-step equations of the alignment loop -/

theorem gda_nil_nil (oi ni : Nat) : generateDiffAux [] [] oi ni = [] := by
  simp [generateDiffAux]

theorem gda_nil_cons (n : List Char) (ns : List (List Char)) (oi ni : Nat) :
    generateDiffAux [] (n :: ns) oi ni =
      ⟨.addition, n, none, some (ni + 1)⟩ :: generateDiffAux [] ns oi (ni + 1) := by
  simp [generateDiffAux]

theorem gda_cons_nil (o : List Char) (os : List (List Char)) (oi ni : Nat) :
    generateDiffAux (o :: os) [] oi ni =
      ⟨.deletion, o, some (oi + 1), none⟩ :: generateDiffAux os [] (oi + 1) ni := by
  simp [generateDiffAux]

theorem gda_ctx (o n : List Char) (os ns : List (List Char)) (oi ni : Nat) (h : o = n) :
    generateDiffAux (o :: os) (n :: ns) oi ni =
      ⟨.context, o, some (oi + 1), some (ni + 1)⟩ :: generateDiffAux os ns (oi + 1) (ni + 1) := by
  subst h; simp [generateDiffAux]

theorem gda_del (o n : List Char) (os ns : List (List Char)) (oi ni : Nat)
    (h : o ≠ n) (h1 : os.head? = some n) :
    generateDiffAux (o :: os) (n :: ns) oi ni =
      ⟨.deletion, o, some (oi + 1), none⟩ :: generateDiffAux os (n :: ns) (oi + 1) ni := by
  simp [generateDiffAux, h, h1]

theorem gda_add (o n : List Char) (os ns : List (List Char)) (oi ni : Nat)
    (h : o ≠ n) (h1 : os.head? ≠ some n) (h2 : ns.head? = some o) :
    generateDiffAux (o :: os) (n :: ns) oi ni =
      ⟨.addition, n, none, some (ni + 1)⟩ :: generateDiffAux (o :: os) ns oi (ni + 1) := by
  simp [generateDiffAux, h, h1, h2]

theorem gda_subst (o n : List Char) (os ns : List (List Char)) (oi ni : Nat)
    (h : o ≠ n) (h1 : os.head? ≠ some n) (h2 : ns.head? ≠ some o) :
    generateDiffAux (o :: os) (n :: ns) oi ni =
      ⟨.deletion, o, some (oi + 1), none⟩ :: ⟨.addition, n, none, some (ni + 1)⟩ ::
        generateDiffAux os ns (oi + 1) (ni + 1) := by
  simp [generateDiffAux, h, h1, h2]

/-! ### The line splitter -/

theorem splitLines_ne_nil (s : List Char) : splitLines s ≠ [] := by
  cases s with
  | nil => simp [splitLines]
  | cons c cs =>
    simp only [splitLines]
    split
    · simp
    · split <;> simp

theorem joinLines_splitLines (s : List Char) : joinLines (splitLines s) = s := by
  induction s with
  | nil => rfl
  | cons c cs ih =>
    obtain ⟨l, ls, hls⟩ := List.exists_cons_of_ne_nil (splitLines_ne_nil cs)
    by_cases hc : c = '\n'
    · subst hc
      have hsplit : splitLines ('\n' :: cs) = [] :: l :: ls := by
        simp [splitLines, hls]
      rw [hsplit]
      rw [show joinLines ([] :: l :: ls) = [] ++ '\n' :: joinLines (l :: ls) from rfl]
      rw [← hls, ih]
      rfl
    · have hsplit : splitLines (c :: cs) = (c :: l) :: ls := by
        simp [splitLines, hc, hls]
      rw [hsplit]
      cases ls with
      | nil =>
        rw [show joinLines [c :: l] = c :: l from rfl]
        have := ih
        rw [hls] at this
        rw [show joinLines [l] = l from rfl] at this
        rw [this]
      | cons l2 ls2 =>
        rw [show joinLines ((c :: l) :: l2 :: ls2) = (c :: l) ++ '\n' :: joinLines (l2 :: ls2) from rfl]
        have := ih
        rw [hls] at this
        rw [show joinLines (l :: l2 :: ls2) = l ++ '\n' :: joinLines (l2 :: ls2) from rfl] at this
        simpa using this

theorem newline_not_mem_splitLines (s : List Char) : ∀ l ∈ splitLines s, '\n' ∉ l := by
  induction s with
  | nil => simp [splitLines]
  | cons c cs ih =>
    by_cases hc : c = '\n'
    · subst hc
      have hsplit : splitLines ('\n' :: cs) = [] :: splitLines cs := by
        simp [splitLines]
      rw [hsplit]
      intro l hl
      rcases List.mem_cons.mp hl with h | h
      · simp [h]
      · exact ih l h
    · obtain ⟨l0, ls, hls⟩ := List.exists_cons_of_ne_nil (splitLines_ne_nil cs)
      have hsplit : splitLines (c :: cs) = (c :: l0) :: ls := by
        simp [splitLines, hc, hls]
      rw [hsplit]
      intro l hl
      rcases List.mem_cons.mp hl with h | h
      · subst h
        intro hmem
        rcases List.mem_cons.mp hmem with h | h
        · exact hc h.symm
        · exact ih l0 (by rw [hls]; exact List.mem_cons_self l0 ls) h
      · exact ih l (by rw [hls]; exact List.mem_cons.mpr (Or.inr h))

/-! ### Structural facts about the alignment loop -/

theorem gda_oldSide_content (ol nl : List (List Char)) (oi ni : Nat) :
    ((generateDiffAux ol nl oi ni).filter oldSide).map (fun r => r.content) = ol := by
  induction ol, nl, oi, ni using generateDiffAux.induct with
  | case1 oi ni => simp [gda_nil_nil]
  | case2 n ns oi ni ih => simp [gda_nil_cons, oldSide, ih]
  | case3 o os oi ni ih => simp [gda_cons_nil, oldSide, ih]
  | case4 os n ns oi ni ih => simp [gda_ctx _ _ _ _ _ _ rfl, oldSide, ih]
  | case5 o os n ns oi ni hne h1 ih => simp [gda_del _ _ _ _ _ _ hne h1, oldSide, ih]
  | case6 o os n ns oi ni hne h1 h2 ih => simp [gda_add _ _ _ _ _ _ hne h1 h2, oldSide, ih]
  | case7 o os n ns oi ni hne h1 h2 ih => simp [gda_subst _ _ _ _ _ _ hne h1 h2, oldSide, ih]

theorem gda_newSide_content (ol nl : List (List Char)) (oi ni : Nat) :
    ((generateDiffAux ol nl oi ni).filter newSide).map (fun r => r.content) = nl := by
  induction ol, nl, oi, ni using generateDiffAux.induct with
  | case1 oi ni => simp [gda_nil_nil]
  | case2 n ns oi ni ih => simp [gda_nil_cons, newSide, ih]
  | case3 o os oi ni ih => simp [gda_cons_nil, newSide, ih]
  | case4 os n ns oi ni ih => simp [gda_ctx _ _ _ _ _ _ rfl, newSide, ih]
  | case5 o os n ns oi ni hne h1 ih => simp [gda_del _ _ _ _ _ _ hne h1, newSide, ih]
  | case6 o os n ns oi ni hne h1 h2 ih => simp [gda_add _ _ _ _ _ _ hne h1 h2, newSide, ih]
  | case7 o os n ns oi ni hne h1 h2 ih => simp [gda_subst _ _ _ _ _ _ hne h1 h2, newSide, ih]

theorem gda_oldSide_numbers (ol nl : List (List Char)) (oi ni : Nat) :
    ((generateDiffAux ol nl oi ni).filter oldSide).map (fun r => r.oldLineNumber) =
      (List.range' (oi + 1) ol.length).map some := by
  induction ol, nl, oi, ni using generateDiffAux.induct with
  | case1 oi ni => simp [gda_nil_nil]
  | case2 n ns oi ni ih => simp [gda_nil_cons, oldSide, ih]
  | case3 o os oi ni ih => simp [gda_cons_nil, oldSide, ih, List.range'_succ]
  | case4 os n ns oi ni ih => simp [gda_ctx _ _ _ _ _ _ rfl, oldSide, ih, List.range'_succ]
  | case5 o os n ns oi ni hne h1 ih => simp [gda_del _ _ _ _ _ _ hne h1, oldSide, ih, List.range'_succ]
  | case6 o os n ns oi ni hne h1 h2 ih => simp [gda_add _ _ _ _ _ _ hne h1 h2, oldSide, ih]
  | case7 o os n ns oi ni hne h1 h2 ih => simp [gda_subst _ _ _ _ _ _ hne h1 h2, oldSide, ih, List.range'_succ]

theorem gda_newSide_numbers (ol nl : List (List Char)) (oi ni : Nat) :
    ((generateDiffAux ol nl oi ni).filter newSide).map (fun r => r.newLineNumber) =
      (List.range' (ni + 1) nl.length).map some := by
  induction ol, nl, oi, ni using generateDiffAux.induct with
  | case1 oi ni => simp [gda_nil_nil]
  | case2 n ns oi ni ih => simp [gda_nil_cons, newSide, ih, List.range'_succ]
  | case3 o os oi ni ih => simp [gda_cons_nil, newSide, ih]
  | case4 os n ns oi ni ih => simp [gda_ctx _ _ _ _ _ _ rfl, newSide, ih, List.range'_succ]
  | case5 o os n ns oi ni hne h1 ih => simp [gda_del _ _ _ _ _ _ hne h1, newSide, ih]
  | case6 o os n ns oi ni hne h1 h2 ih => simp [gda_add _ _ _ _ _ _ hne h1 h2, newSide, ih, List.range'_succ]
  | case7 o os n ns oi ni hne h1 h2 ih => simp [gda_subst _ _ _ _ _ _ hne h1 h2, newSide, ih, List.range'_succ]

theorem gda_absent_numbers (ol nl : List (List Char)) (oi ni : Nat) :
    ∀ r ∈ generateDiffAux ol nl oi ni,
      (r.type = .addition → r.oldLineNumber = none) ∧
      (r.type = .deletion → r.newLineNumber = none) := by
  induction ol, nl, oi, ni using generateDiffAux.induct with
  | case1 oi ni => simp [gda_nil_nil]
  | case2 n ns oi ni ih =>
    intro r hr
    rw [gda_nil_cons] at hr
    rcases List.mem_cons.mp hr with h | h
    · subst h; simp
    · exact ih r h
  | case3 o os oi ni ih =>
    intro r hr
    rw [gda_cons_nil] at hr
    rcases List.mem_cons.mp hr with h | h
    · subst h; simp
    · exact ih r h
  | case4 os n ns oi ni ih =>
    intro r hr
    rw [gda_ctx _ _ _ _ _ _ rfl] at hr
    rcases List.mem_cons.mp hr with h | h
    · subst h; simp
    · exact ih r h
  | case5 o os n ns oi ni hne h1 ih =>
    intro r hr
    rw [gda_del _ _ _ _ _ _ hne h1] at hr
    rcases List.mem_cons.mp hr with h | h
    · subst h; simp
    · exact ih r h
  | case6 o os n ns oi ni hne h1 h2 ih =>
    intro r hr
    rw [gda_add _ _ _ _ _ _ hne h1 h2] at hr
    rcases List.mem_cons.mp hr with h | h
    · subst h; simp
    · exact ih r h
  | case7 o os n ns oi ni hne h1 h2 ih =>
    intro r hr
    rw [gda_subst _ _ _ _ _ _ hne h1 h2] at hr
    rcases List.mem_cons.mp hr with h | h
    · subst h; simp
    · rcases List.mem_cons.mp h with h | h
      · subst h; simp
      · exact ih r h

theorem gda_self_context (l : List (List Char)) (oi ni : Nat) :
    ∀ r ∈ generateDiffAux l l oi ni, r.type = .context := by
  induction l generalizing oi ni with
  | nil => simp [gda_nil_nil]
  | cons a l ih =>
    intro r hr
    rw [gda_ctx _ _ _ _ _ _ rfl] at hr
    rcases List.mem_cons.mp hr with h | h
    · subst h; rfl
    · exact ih _ _ r h

theorem gda_left_exhausted (ns : List (List Char)) (oi ni : Nat) :
    ∀ r ∈ generateDiffAux [] ns oi ni, r.type = .addition := by
  induction ns generalizing ni with
  | nil => simp [gda_nil_nil]
  | cons n ns ih =>
    intro r hr
    rw [gda_nil_cons] at hr
    rcases List.mem_cons.mp hr with h | h
    · subst h; rfl
    · exact ih _ r h

theorem gda_right_exhausted (os : List (List Char)) (oi ni : Nat) :
    ∀ r ∈ generateDiffAux os [] oi ni, r.type = .deletion := by
  induction os generalizing oi with
  | nil => simp [gda_nil_nil]
  | cons o os ih =>
    intro r hr
    rw [gda_cons_nil] at hr
    rcases List.mem_cons.mp hr with h | h
    · subst h; rfl
    · exact ih _ r h

theorem falsy_of_absent (v : JSValue) (h : absent v) : falsy v = true := by
  rcases h with rfl | rfl | rfl <;> rfl

theorem falsy_str_false (x : List Char) (hx : x ≠ []) : falsy (.str x) = false := by
  simp [falsy, hx]

/-! ### Concrete runs of the pipeline used below -/

theorem diffViewer_ab :
    DiffViewer (.str ['a']) (.str ['b']) (.str ['f']) =
      .ok (.diffResult [⟨.deletion, ['a'], some 1, none⟩, ⟨.addition, ['b'], none, some 1⟩] 1 1) := by
  have hg : generateDiff ['a'] ['b'] =
      [⟨.deletion, ['a'], some 1, none⟩, ⟨.addition, ['b'], none, some 1⟩] := by
    show generateDiffAux [['a']] [['b']] 0 0 = _
    rw [gda_subst _ _ _ _ _ _ (by decide) (by decide) (by decide), gda_nil_nil]
  unfold DiffViewer tryBlock
  simp [coerceToString, falsy, hg, List.filter]
  decide

/-! ### The claims -/

/-- Claim C1: for every pair of inputs, concatenating the `content` of the
Context and Deletion records of `generateDiff`, in order, rejoined with
newlines, reproduces the old input exactly; concatenating the `content`
of the Context and Addition records reproduces the new input exactly. -/
theorem reconstruction (before after : List Char) :
    joinLines (((generateDiff before after).filter oldSide).map (fun r => r.content)) = before ∧
    joinLines (((generateDiff before after).filter newSide).map (fun r => r.content)) = after := by
  constructor
  · rw [show generateDiff before after =
        generateDiffAux (splitLines before) (splitLines after) 0 0 from rfl,
      gda_oldSide_content, joinLines_splitLines]
  · rw [show generateDiff before after =
        generateDiffAux (splitLines before) (splitLines after) 0 0 from rfl,
      gda_newSide_content, joinLines_splitLines]

/-- Claim C2: one step of the aligner follows exactly the source's
priority order.  When the old side is exhausted the remaining new lines
are emitted as Additions (first two conjuncts); when the new side is
exhausted the remaining old lines are emitted as Deletions (next two);
equal current lines give a single Context record advancing both cursors;
for existing unequal lines, the lookahead emits a Deletion advancing only
the old cursor when the next old line equals the current new line, else
an Addition advancing only the new cursor when the next new line equals
the current old line, else a Deletion immediately followed by an Addition
advancing both cursors. -/
theorem alignerStepPriority (o n : List Char) (os ns : List (List Char)) (oi ni : Nat) :
    (generateDiffAux [] (n :: ns) oi ni =
      ⟨.addition, n, none, some (ni + 1)⟩ :: generateDiffAux [] ns oi (ni + 1)) ∧
    (∀ r ∈ generateDiffAux [] ns oi ni, r.type = .addition) ∧
    (generateDiffAux (o :: os) [] oi ni =
      ⟨.deletion, o, some (oi + 1), none⟩ :: generateDiffAux os [] (oi + 1) ni) ∧
    (∀ r ∈ generateDiffAux os [] oi ni, r.type = .deletion) ∧
    (o = n → generateDiffAux (o :: os) (n :: ns) oi ni =
      ⟨.context, o, some (oi + 1), some (ni + 1)⟩ ::
        generateDiffAux os ns (oi + 1) (ni + 1)) ∧
    (o ≠ n → os.head? = some n → generateDiffAux (o :: os) (n :: ns) oi ni =
      ⟨.deletion, o, some (oi + 1), none⟩ :: generateDiffAux os (n :: ns) (oi + 1) ni) ∧
    (o ≠ n → os.head? ≠ some n → ns.head? = some o →
      generateDiffAux (o :: os) (n :: ns) oi ni =
        ⟨.addition, n, none, some (ni + 1)⟩ :: generateDiffAux (o :: os) ns oi (ni + 1)) ∧
    (o ≠ n → os.head? ≠ some n → ns.head? ≠ some o →
      generateDiffAux (o :: os) (n :: ns) oi ni =
        ⟨.deletion, o, some (oi + 1), none⟩ :: ⟨.addition, n, none, some (ni + 1)⟩ ::
          generateDiffAux os ns (oi + 1) (ni + 1)) :=
  ⟨gda_nil_cons n ns oi ni, gda_left_exhausted ns oi ni, gda_cons_nil o os oi ni,
   gda_right_exhausted os oi ni, fun h => gda_ctx o n os ns oi ni h,
   fun h h1 => gda_del o n os ns oi ni h h1,
   fun h h1 h2 => gda_add o n os ns oi ni h h1 h2,
   fun h h1 h2 => gda_subst o n os ns oi ni h h1 h2⟩

/-- Witness for C2: the substitution branch at the concrete lines
`x` versus `y`, whose lookahead conditions all fail. -/
theorem alignerStepPriorityWitness :
    generateDiffAux [['x']] [['y']] 0 0 =
      ⟨.deletion, ['x'], some 1, none⟩ :: ⟨.addition, ['y'], none, some 1⟩ ::
        generateDiffAux [] [] 1 1 :=
  (alignerStepPriority ['x'] ['y'] [] [] 0 0).2.2.2.2.2.2.2
    (by decide) (by decide) (by decide)

/-- Claim C3, amended: `DiffViewer` with two empty strings returns the
invalid-input outcome, for any `fileName`, because the empty string is
falsy and the validation gate `if (!before || !after || !fileName)` fires
before any diff computation. -/
theorem emptyInputsInvalidInput (name : JSValue) :
    DiffViewer (.str []) (.str []) name = .ok .invalidInput := rfl

/-- Counterexample to C3 as stated: with both inputs empty and a
non-absent file name, the outcome is not the no-differences outcome. -/
theorem emptyInputsNotNoDifferences :
    DiffViewer (.str []) (.str []) (.str ['f']) ≠ .ok .noDifferences := by decide

/-- Claim C4, amended: for every non-empty text `x` and every non-falsy
`name`, `DiffViewer x x name` returns the no-differences outcome: the
aligner on two equal line sequences emits only Context records, so
`hasChanges` is false. -/
theorem identityNoDifferences (x : List Char) (name : JSValue)
    (hx : x ≠ []) (hname : falsy name = false) :
    DiffViewer (.str x) (.str x) name = .ok .noDifferences := by
  have hall : ((generateDiffAux (splitLines x) (splitLines x) 0 0).any
      (fun l => l.type != LineType.context)) = false := by
    rw [List.any_eq_false]
    intro r hr
    rw [gda_self_context (splitLines x) 0 0 r hr]
    simp
  have htry : tryBlock (.str x) (.str x) = .ok .noDifferences := by
    unfold tryBlock
    simp only [coerceToString]
    show (let diffLines := generateDiff x x;
      let hasChanges := diffLines.any (fun l => l.type != LineType.context);
      if hasChanges then _ else Except.ok Outcome.noDifferences) = _
    simp only [generateDiff]
    rw [hall]
    rfl
  unfold DiffViewer
  rw [falsy_str_false x hx, hname, htry]
  rfl

/-- Witness for C4: the one-line text `a` diffed against itself yields
the no-differences outcome. -/
theorem identityNoDifferencesWitness :
    DiffViewer (.str ['a']) (.str ['a']) (.str ['f']) = .ok .noDifferences :=
  identityNoDifferences ['a'] (.str ['f']) (by decide) (by decide)

/-- Counterexample to C4 as stated: at `x = ""` (with a non-absent file
name) the identity diff does not yield the no-differences outcome, since
the empty string is rejected as falsy by the validation gate. -/
theorem identityFailsOnEmpty :
    DiffViewer (.str []) (.str []) (.str ['g']) ≠ .ok .noDifferences := by decide

/-- Claim C5: in the aligner's output, the `oldLineNumber` values of the
Context and Deletion records, in order, are exactly `1, 2, ...,`
(number of old lines) with no gaps; the `newLineNumber` values of the
Context and Addition records are exactly `1, 2, ...,` (number of new
lines); Addition records have no `oldLineNumber` and Deletion records no
`newLineNumber`. -/
theorem lineNumbering (ol nl : List (List Char)) :
    ((generateDiffAux ol nl 0 0).filter oldSide).map (fun r => r.oldLineNumber) =
      (List.range' 1 ol.length).map some ∧
    ((generateDiffAux ol nl 0 0).filter newSide).map (fun r => r.newLineNumber) =
      (List.range' 1 nl.length).map some ∧
    (∀ r ∈ generateDiffAux ol nl 0 0,
      (r.type = .addition → r.oldLineNumber = none) ∧
      (r.type = .deletion → r.newLineNumber = none)) :=
  ⟨gda_oldSide_numbers ol nl 0 0, gda_newSide_numbers ol nl 0 0,
   gda_absent_numbers ol nl 0 0⟩

/-- Witness for C5: the old-side numbering of a concrete one-line by
two-line diff. -/
theorem lineNumberingWitness :
    ((generateDiffAux [['a']] [['b'], ['a']] 0 0).filter oldSide).map
        (fun r => r.oldLineNumber) = (List.range' 1 1).map some :=
  (lineNumbering [['a']] [['b'], ['a']]).1

/-- Claim C6: whenever `DiffViewer` returns a rendered diff, the
displayed additions count equals the number of Addition records and the
displayed deletions count equals the number of Deletion records. -/
theorem summaryCounts (before after fileName : JSValue) (recs : List LineRecord)
    (adds dels : Nat)
    (h : DiffViewer before after fileName = .ok (.diffResult recs adds dels)) :
    adds = (recs.filter (fun r => r.type == .addition)).length ∧
    dels = (recs.filter (fun r => r.type == .deletion)).length := by
  unfold DiffViewer at h
  split at h
  · simp at h
  · split at h
    · rename_i outcome heq
      unfold tryBlock at heq
      split at heq
      · simp at heq
      · split at heq
        · simp at heq
        · dsimp only at heq
          split at heq
          · rw [← heq] at h
            simp only [Except.ok.injEq, Outcome.diffResult.injEq] at h
            obtain ⟨hrecs, hadds, hdels⟩ := h
            subst hrecs hadds hdels
            exact ⟨rfl, rfl⟩
          · rw [← heq] at h
            simp at h
    · simp [catchBlock] at h

/-- Witness for C6: the diff of `a` against `b` is a substituted pair
reported as one addition and one deletion. -/
theorem summaryCountsWitness :
    (1 : Nat) = (([⟨.deletion, ['a'], some 1, none⟩,
        ⟨.addition, ['b'], none, some 1⟩] : List LineRecord).filter
        (fun r => r.type == .addition)).length ∧
    (1 : Nat) = (([⟨.deletion, ['a'], some 1, none⟩,
        ⟨.addition, ['b'], none, some 1⟩] : List LineRecord).filter
        (fun r => r.type == .deletion)).length :=
  summaryCounts (.str ['a']) (.str ['b']) (.str ['f'])
    [⟨.deletion, ['a'], some 1, none⟩, ⟨.addition, ['b'], none, some 1⟩] 1 1
    diffViewer_ab

/-- Claim C7: if any of the three inputs is absent (null, undefined or
the empty string), `DiffViewer` returns the invalid-input outcome; the
gate runs before any coercion, splitting or alignment, and no error
crosses the component boundary. -/
theorem absentInputsInvalidInput (before after fileName : JSValue)
    (h : absent before ∨ absent after ∨ absent fileName) :
    DiffViewer before after fileName = .ok .invalidInput := by
  unfold DiffViewer
  rcases h with h | h | h <;> simp [falsy_of_absent _ h]

/-- Witness for C7: `DiffViewer(null, "x", "f")` yields the invalid-input
outcome; so does `DiffViewer(null, obj, "f")` even when `obj` cannot be
coerced to a string, showing validation precedes normalization. -/
theorem absentInputsWitness :
    DiffViewer .jsNull (.str ['x']) (.str ['f']) = .ok .invalidInput ∧
    DiffViewer .jsNull (.obj none) (.str ['f']) = .ok .invalidInput :=
  ⟨absentInputsInvalidInput _ _ _ (Or.inl (Or.inl rfl)),
   absentInputsInvalidInput _ _ _ (Or.inl (Or.inl rfl))⟩

/-- Claim C8 (the code bug): when string coercion of `before` throws (a
truthy object that cannot be converted to a primitive), the catch block
does not return a computation-failed outcome: its fallback interpolates
`beforeStr`, a `const` bound inside the `try` block and out of scope in
the catch block, so a `ReferenceError` escapes to the caller. -/
theorem catchBlockCrash :
    DiffViewer (.obj none) (.str ['x']) (.str ['f']) =
      .error (.referenceError ("beforeStr".toList)) := rfl

/-- Claim C9: the line splitter uses the newline character as the sole
delimiter with no line-ending normalization (rejoining the pieces with
newlines restores the text exactly and no piece contains a newline; a
carriage return before the newline stays in its line), and splitting the
empty text yields exactly one empty line. -/
theorem lineSplitterPolicy :
    splitLines [] = [[]] ∧
    (∀ s : List Char, joinLines (splitLines s) = s) ∧
    (∀ s : List Char, ∀ l ∈ splitLines s, '\n' ∉ l) ∧
    splitLines ['a', '\r', '\n', 'b'] = [['a', '\r'], ['b']] :=
  ⟨rfl, joinLines_splitLines, newline_not_mem_splitLines, by decide⟩

/-- Witness for C9: the line `a` followed by a carriage return, a piece
of splitting `a\r\nb`, contains no newline. -/
theorem lineSplitterPolicyWitness : '\n' ∉ (['a', '\r'] : List Char) :=
  lineSplitterPolicy.2.2.1 ['a', '\r', '\n', 'b'] ['a', '\r'] (by decide)

/-- Claim C10: the aligner terminates (it is a total function of the two
line sequences) and its output holds at most
(number of old lines) + (number of new lines) records, since every
iteration advances at least one cursor. -/
theorem alignerOutputBound (ol nl : List (List Char)) (oi ni : Nat) :
    (generateDiffAux ol nl oi ni).length ≤ ol.length + nl.length := by
  induction ol, nl, oi, ni using generateDiffAux.induct with
  | case1 oi ni => simp [gda_nil_nil]
  | case2 n ns oi ni ih => rw [gda_nil_cons]; simp at ih ⊢; omega
  | case3 o os oi ni ih => rw [gda_cons_nil]; simp at ih ⊢; omega
  | case4 os n ns oi ni ih => rw [gda_ctx _ _ _ _ _ _ rfl]; simp at ih ⊢; omega
  | case5 o os n ns oi ni hne h1 ih => rw [gda_del _ _ _ _ _ _ hne h1]; simp at ih ⊢; omega
  | case6 o os n ns oi ni hne h1 h2 ih => rw [gda_add _ _ _ _ _ _ hne h1 h2]; simp at ih ⊢; omega
  | case7 o os n ns oi ni hne h1 h2 ih => rw [gda_subst _ _ _ _ _ _ hne h1 h2]; simp at ih ⊢; omega

end GitGenie
